import Mathlib

/-!
Shallow embedding of `cyberbrain/execution_log.py` (class `Logger`).

Python values are modelled by `PyVal`: immutable primitives plus `ref a`,
a reference to a mutable object living on an explicit heap (`Heap`).
`deepcopy` resolves references through the heap into a heap-independent
`Snapshot`, mirroring `copy.deepcopy`.  A fuel argument bounds the
recursion depth; on acyclic heaps the chosen fuel (`heap length + 1`)
always suffices.

Python exceptions (`KeyError` from scope/instruction-table lookups, the
value stack's underflow) are modelled by `Except`/an `Err` code paired
with the partially-updated logger state, matching the fact that a raised
exception propagates out of `detect_chanages` while the `Logger` object
keeps whatever state had been written before the raise.
-/

/-- A Python value: an immutable primitive or a reference to a heap object. -/
inductive PyVal where
  | int (n : Int)
  | str (s : String)
  | ref (a : Nat)
deriving DecidableEq

/-- A mutable heap object (e.g. a Python list) holding values. -/
abbrev PyObj := List PyVal

/-- The heap: association of addresses to mutable objects (first hit wins). -/
abbrev Heap := List (Nat × PyObj)

/-- In-place mutation of the live object at address `a` (rebinds the address). -/
def heapUpdate (h : Heap) (a : Nat) (o : PyObj) : Heap :=
  (a, o) :: h

/-- A deep, heap-independent copy of a value, as produced by `copy.deepcopy`. -/
inductive Snapshot where
  | int (n : Int)
  | str (s : String)
  | list (xs : List Snapshot)

/-- Copies each element of a list with `f`, failing if any element fails. -/
def deepcopyList (f : PyVal → Option Snapshot) : List PyVal → Option (List Snapshot)
  | [] => some []
  | v :: vs =>
    match f v, deepcopyList f vs with
    | some s, some ss => some (s :: ss)
    | _, _ => none

/-- Fueled deep copy: resolves references through the heap into a `Snapshot`. -/
def deepcopyVal (h : Heap) : Nat → PyVal → Option Snapshot
  | _, PyVal.int n => some (Snapshot.int n)
  | _, PyVal.str s => some (Snapshot.str s)
  | 0, PyVal.ref _ => none
  | fuel + 1, PyVal.ref a =>
    match h.lookup a with
    | none => none
    | some obj => (deepcopyList (fun v => deepcopyVal h fuel v) obj).map Snapshot.list

/-- `copy.deepcopy`: fuel `h.length + 1` suffices for every acyclic heap. -/
def deepcopy (h : Heap) (v : PyVal) : Option Snapshot :=
  deepcopyVal h (h.length + 1) v

/-- A name scope (`frame.f_locals` / `f_globals` / `f_builtins`): a string-keyed map. -/
abbrev Scope := List (String × PyVal)

/-- The live frame handle: instruction pointer and the three name scopes. -/
structure Frame where
  f_lasti : Nat
  f_locals : Scope
  f_globals : Scope
  f_builtins : Scope

/-- Python `key in scope` / `scope[key]` for a possibly non-string key:
a dict keyed by identifier strings only ever contains string keys, so a
non-string key always misses. -/
def scopeLookup (scope : Scope) (key : PyVal) : Option PyVal :=
  match key with
  | PyVal.str s => scope.lookup s
  | _ => none

/-- Exception codes raised while scanning. `nameNotFound` is the `KeyError`
from `frame.f_builtins[name]`; `instrNotFound` the `KeyError` from
`self.instructions[i]`; `stackUnderflow` comes from the value stack;
`copyDepth` is the fuel artifact of the deep-copy model. -/
inductive Err where
  | nameNotFound
  | stackUnderflow
  | instrNotFound
  | copyDepth
deriving DecidableEq

/-- `Logger._deepcopy_from_frame`: resolve `name` in local scope, then global
scope, then builtin scope (first hit wins) and deep-copy the value found;
the final `frame.f_builtins[name]` raises `KeyError` when the name is
absent from all three. -/
def deepcopy_from_frame (h : Heap) (frame : Frame) (name : PyVal) : Except Err Snapshot :=
  match scopeLookup frame.f_locals name with
  | some v =>
    match deepcopy h v with
    | some s => Except.ok s
    | none => Except.error Err.copyDepth
  | none =>
    match scopeLookup frame.f_globals name with
    | some v =>
      match deepcopy h v with
      | some s => Except.ok s
      | none => Except.error Err.copyDepth
    | none =>
      match scopeLookup frame.f_builtins name with
      | some v =>
        match deepcopy h v with
        | some s => Except.ok s
        | none => Except.error Err.copyDepth
      | none => Except.error Err.nameNotFound

/-- A decoded instruction, as `dis.get_instructions` yields it.  `jrel` and
`jabs` stand for `opcode in dis.hasjrel` and `opcode in dis.hasjabs`. -/
structure Instr where
  offset : Nat
  opname : String
  jrel : Bool
  jabs : Bool
  arg : Nat
  argval : String
deriving DecidableEq

/-- Modelled from the spec: `value_stack.py` is not under `src/`.  The
Operand Stack Simulator is "a shadow stack that mirrors the real VM's
evaluation stack"; entries are snapshot-able values or name references. -/
structure ValueStack where
  stack : List PyVal
deriving DecidableEq

/-- Modelled from the spec: `top()` fails with `StackUnderflow` if the stack
has fewer than the required elements. -/
def ValueStack.tos (vs : ValueStack) : Except Err PyVal :=
  match vs.stack with
  | [] => Except.error Err.stackUnderflow
  | v :: _ => Except.ok v

/-- Modelled from the spec: `second()` fails with `StackUnderflow` if the
stack has fewer than two elements. -/
def ValueStack.tos1 (vs : ValueStack) : Except Err PyVal :=
  match vs.stack with
  | _ :: v :: _ => Except.ok v
  | _ => Except.error Err.stackUnderflow

/-- Modelled from the spec: `handle_instruction(instr)` replays the
instruction's stack effect.  A store into a named slot pops the stored
value; a store into an attribute pops the owning object and the stored
value (the conventional store-attribute stack layout).  The remaining
opcodes' effects form a table the spec leaves to the implementer and no
claim depends on them, so they are modelled as leaving the stack as is. -/
def ValueStack.handle_instruction (vs : ValueStack) (instr : Instr) : ValueStack :=
  if instr.opname = "STORE_NAME" ∨ instr.opname = "STORE_FAST" then ⟨vs.stack.drop 1⟩
  else if instr.opname = "STORE_ATTR" then ⟨vs.stack.drop 2⟩
  else vs

/-- A Mutation's `target`: a variable name for named stores, the owning
object (a stack value) for attribute stores. -/
inductive MTarget where
  | ident (s : String)
  | obj (v : PyVal)
deriving DecidableEq

/-- One recorded value-change event (`basis.Mutation`). -/
structure Mutation where
  target : MTarget
  value : Snapshot
  source : PyVal

/-- The execution logger's state (class `Logger`). -/
structure Logger where
  instructions : List Instr
  execution_start_index : Nat
  next_jump_location : Option Nat
  value_stack : ValueStack
  mutations : List Mutation

/-- `self.instructions[off]`: the dict built in `__init__` keys each
instruction by its own `offset`. -/
def lookupInstr (tbl : List Instr) (off : Nat) : Option Instr :=
  tbl.find? (fun instr => instr.offset == off)

/-- `Logger.__init__`: starts scanning 4 bytes past the current `f_lasti`
(skipping `CALL_METHOD` and `POP_TOP` of the tracer's own setup), with no
pending jump, an empty shadow stack and an empty mutation log. -/
def create_logger (instrs : List Instr) (frame : Frame) : Logger :=
  { instructions := instrs
    execution_start_index := frame.f_lasti + 4
    next_jump_location := none
    value_stack := ⟨[]⟩
    mutations := [] }

/-- `Logger._record_jump_location_if_exists`. -/
def Logger.record_jump_location_if_exists (s : Logger) (instr : Instr) : Logger :=
  if instr.jrel = true then
    { s with next_jump_location := some (instr.offset + 2 + instr.arg) }
  else if instr.jabs = true then
    { s with next_jump_location := some instr.arg }
  else
    { s with next_jump_location := none }

/-- `Logger._log_changed_value`.  Keyword arguments of the `Mutation(...)`
call evaluate left to right, so for named stores the deep copy (which may
raise) happens before `self._tos`, and for attribute stores `self._tos`
is read before the deep copy, which precedes `self._tos1`; the `append`
happens only after all three arguments evaluated, and
`handle_instruction` runs last. -/
def Logger.log_changed_value (h : Heap) (s : Logger) (frame : Frame) (instr : Instr) :
    Logger × Option Err :=
  if instr.opname = "STORE_NAME" ∨ instr.opname = "STORE_FAST" then
    match deepcopy_from_frame h frame (PyVal.str instr.argval) with
    | Except.error e => (s, some e)
    | Except.ok snap =>
      match s.value_stack.tos with
      | Except.error e => (s, some e)
      | Except.ok t =>
        ({ s with
            mutations := s.mutations ++ [⟨MTarget.ident instr.argval, snap, t⟩]
            value_stack := s.value_stack.handle_instruction instr }, none)
  else if instr.opname = "STORE_ATTR" then
    match s.value_stack.tos with
    | Except.error e => (s, some e)
    | Except.ok t =>
      match deepcopy_from_frame h frame t with
      | Except.error e => (s, some e)
      | Except.ok snap =>
        match s.value_stack.tos1 with
        | Except.error e => (s, some e)
        | Except.ok t1 =>
          ({ s with
              mutations := s.mutations ++ [⟨MTarget.obj t, snap, t1⟩]
              value_stack := s.value_stack.handle_instruction instr }, none)
  else
    ({ s with value_stack := s.value_stack.handle_instruction instr }, none)

/-- The offsets `range(start, stop, 2)` visits. -/
def scanOffsets (start stop : Nat) : List Nat :=
  (List.range ((stop - start + 1) / 2)).map (fun k => start + 2 * k)

/-- The body of the `for i in range(...)` loop in `detect_chanages`: process
offsets in order, stopping at the first raised exception. -/
def Logger.scanLoop (h : Heap) (frame : Frame) : Logger → List Nat → Logger × Option Err
  | s, [] => (s, none)
  | s, i :: rest =>
    match lookupInstr s.instructions i with
    | none => (s, some Err.instrNotFound)
    | some instr =>
      match Logger.log_changed_value h s frame instr with
      | (s1, some e) => (s1, some e)
      | (s1, none) => Logger.scanLoop h frame s1 rest

/-- `Logger.detect_chanages` (sic).  If `last_i` equals the recorded jump
location, move the start index there, re-derive the jump location, and
return without scanning; otherwise scan `range(start, last_i, 2)`, then
re-derive the jump location and set the start index to `last_i`.  An
exception leaves the state as written up to the raise. -/
def Logger.detect_chanages (h : Heap) (s : Logger) (frame : Frame) : Logger × Option Err :=
  let last_i := frame.f_lasti
  if s.next_jump_location = some last_i then
    let s1 := { s with execution_start_index := last_i }
    match lookupInstr s1.instructions last_i with
    | none => (s1, some Err.instrNotFound)
    | some instr => (s1.record_jump_location_if_exists instr, none)
  else
    match Logger.scanLoop h frame s (scanOffsets s.execution_start_index last_i) with
    | (s1, some e) => (s1, some e)
    | (s1, none) =>
      match lookupInstr s1.instructions last_i with
      | none => (s1, some Err.instrNotFound)
      | some instr =>
        ({ s1.record_jump_location_if_exists instr with execution_start_index := last_i }, none)

/-- `instr.opname in \x7b"STORE_NAME", "STORE_FAST", "STORE_ATTR"\x7d`: the
store-class instructions. -/
def isStoreOp (instr : Instr) : Bool :=
  instr.opname == "STORE_NAME" || instr.opname == "STORE_FAST" || instr.opname == "STORE_ATTR"

/-- Number of store-class instructions among the given offsets. -/
def countStores (tbl : List Instr) (offs : List Nat) : Nat :=
  (offs.filter (fun i =>
    match lookupInstr tbl i with
    | some instr => isStoreOp instr
    | none => false)).length

/-- The traced process as a whole: the live heap next to the logger. -/
structure TracedState where
  heap : Heap
  logger : Logger

/-- Mutate the live object at address `a` in place; the logger is untouched. -/
def mutateLiveObject (t : TracedState) (a : Nat) (o : PyObj) : TracedState :=
  { t with heap := heapUpdate t.heap a o }

/-! ### Helper lemmas -/

/-- The instruction table keys every instruction by its own offset, so a
successful lookup returns an instruction whose `offset` is the key. -/
theorem lookupInstr_offset {tbl : List Instr} {off : Nat} {instr : Instr}
    (hl : lookupInstr tbl off = some instr) : instr.offset = off := by
  have := List.find?_some hl
  simpa using this

theorem record_jump_preserves (s : Logger) (instr : Instr) :
    (s.record_jump_location_if_exists instr).instructions = s.instructions ∧
    (s.record_jump_location_if_exists instr).execution_start_index = s.execution_start_index ∧
    (s.record_jump_location_if_exists instr).value_stack = s.value_stack ∧
    (s.record_jump_location_if_exists instr).mutations = s.mutations := by
  unfold Logger.record_jump_location_if_exists
  split
  · exact ⟨rfl, rfl, rfl, rfl⟩
  · split
    · exact ⟨rfl, rfl, rfl, rfl⟩
    · exact ⟨rfl, rfl, rfl, rfl⟩

theorem log_changed_value_preserves (h : Heap) (s : Logger) (frame : Frame) (instr : Instr) :
    (Logger.log_changed_value h s frame instr).1.instructions = s.instructions ∧
    (Logger.log_changed_value h s frame instr).1.execution_start_index
      = s.execution_start_index ∧
    (Logger.log_changed_value h s frame instr).1.next_jump_location
      = s.next_jump_location := by
  unfold Logger.log_changed_value
  repeat' split
  all_goals exact ⟨rfl, rfl, rfl⟩

theorem log_changed_value_error_state (h : Heap) (s : Logger) (frame : Frame) (instr : Instr)
    (e : Err) (he : (Logger.log_changed_value h s frame instr).2 = some e) :
    (Logger.log_changed_value h s frame instr).1 = s := by
  by_cases h1 : instr.opname = "STORE_NAME" ∨ instr.opname = "STORE_FAST"
  · rcases hd : deepcopy_from_frame h frame (PyVal.str instr.argval) with e1 | snap
    · simp [Logger.log_changed_value, h1, hd]
    · rcases ht : s.value_stack.tos with e1 | t
      · simp [Logger.log_changed_value, h1, hd, ht]
      · simp [Logger.log_changed_value, h1, hd, ht] at he
  · by_cases h2 : instr.opname = "STORE_ATTR"
    · rcases ht : s.value_stack.tos with e1 | t
      · simp [Logger.log_changed_value, h1, h2, ht]
      · rcases hd : deepcopy_from_frame h frame t with e1 | snap
        · simp [Logger.log_changed_value, h1, h2, ht, hd]
        · rcases ht1 : s.value_stack.tos1 with e1 | t1
          · simp [Logger.log_changed_value, h1, h2, ht, hd, ht1]
          · simp [Logger.log_changed_value, h1, h2, ht, hd, ht1] at he
    · simp [Logger.log_changed_value, h1, h2] at he

theorem log_changed_value_store_name (h : Heap) (s : Logger) (frame : Frame) (instr : Instr)
    (hname : instr.opname = "STORE_NAME" ∨ instr.opname = "STORE_FAST")
    (snap : Snapshot) (t : PyVal)
    (hsnap : deepcopy_from_frame h frame (PyVal.str instr.argval) = Except.ok snap)
    (htos : s.value_stack.tos = Except.ok t) :
    Logger.log_changed_value h s frame instr =
      ({ s with
          mutations := s.mutations ++ [⟨MTarget.ident instr.argval, snap, t⟩]
          value_stack := s.value_stack.handle_instruction instr }, none) := by
  unfold Logger.log_changed_value
  rw [if_pos hname, hsnap, htos]

theorem log_changed_value_store_attr (h : Heap) (s : Logger) (frame : Frame) (instr : Instr)
    (hname : instr.opname = "STORE_ATTR")
    (snap : Snapshot) (t t1 : PyVal)
    (htos : s.value_stack.tos = Except.ok t)
    (hsnap : deepcopy_from_frame h frame t = Except.ok snap)
    (htos1 : s.value_stack.tos1 = Except.ok t1) :
    Logger.log_changed_value h s frame instr =
      ({ s with
          mutations := s.mutations ++ [⟨MTarget.obj t, snap, t1⟩]
          value_stack := s.value_stack.handle_instruction instr }, none) := by
  have hne : ¬ (instr.opname = "STORE_NAME" ∨ instr.opname = "STORE_FAST") := by
    rw [hname]; simp
  simp only [Logger.log_changed_value, if_neg hne, if_pos hname, htos, hsnap, htos1]

theorem log_changed_value_other (h : Heap) (s : Logger) (frame : Frame) (instr : Instr)
    (h1 : ¬ (instr.opname = "STORE_NAME" ∨ instr.opname = "STORE_FAST"))
    (h2 : ¬ instr.opname = "STORE_ATTR") :
    Logger.log_changed_value h s frame instr =
      ({ s with value_stack := s.value_stack.handle_instruction instr }, none) := by
  simp only [Logger.log_changed_value, if_neg h1, if_neg h2]

theorem log_changed_value_mutations_length (h : Heap) (s : Logger) (frame : Frame)
    (instr : Instr) (hok : (Logger.log_changed_value h s frame instr).2 = none) :
    (Logger.log_changed_value h s frame instr).1.mutations.length
      = s.mutations.length + (if isStoreOp instr = true then 1 else 0) := by
  have hstore : ∀ hc : instr.opname = "STORE_NAME" ∨ instr.opname = "STORE_FAST",
      isStoreOp instr = true := by
    intro hc; rcases hc with hc | hc <;> simp [isStoreOp, hc]
  by_cases h1 : instr.opname = "STORE_NAME" ∨ instr.opname = "STORE_FAST"
  · rcases hd : deepcopy_from_frame h frame (PyVal.str instr.argval) with e1 | snap
    · simp [Logger.log_changed_value, h1, hd] at hok
    · rcases ht : s.value_stack.tos with e1 | t
      · simp [Logger.log_changed_value, h1, hd, ht] at hok
      · simp [Logger.log_changed_value, h1, hd, ht, hstore h1]
  · by_cases h2 : instr.opname = "STORE_ATTR"
    · rcases ht : s.value_stack.tos with e1 | t
      · simp [Logger.log_changed_value, h1, h2, ht] at hok
      · rcases hd : deepcopy_from_frame h frame t with e1 | snap
        · simp [Logger.log_changed_value, h1, h2, ht, hd] at hok
        · rcases ht1 : s.value_stack.tos1 with e1 | t1
          · simp [Logger.log_changed_value, h1, h2, ht, hd, ht1] at hok
          · simp [Logger.log_changed_value, h1, h2, ht, hd, ht1, isStoreOp]
    · have hns : isStoreOp instr = false := by
        push_neg at h1
        simp [isStoreOp, h1.1, h1.2, h2]
      simp [Logger.log_changed_value, h1, h2, hns]

theorem scanLoop_preserves (h : Heap) (frame : Frame) (xs : List Nat) :
    ∀ s : Logger,
      (Logger.scanLoop h frame s xs).1.instructions = s.instructions ∧
      (Logger.scanLoop h frame s xs).1.execution_start_index = s.execution_start_index := by
  induction xs with
  | nil => intro s; exact ⟨rfl, rfl⟩
  | cons i rest ih =>
    intro s
    rcases hl : lookupInstr s.instructions i with _ | instr
    · simp [Logger.scanLoop, hl]
    · rcases hr : Logger.log_changed_value h s frame instr with ⟨s1, e⟩
      have hp := log_changed_value_preserves h s frame instr
      rw [hr] at hp
      have hp1 : s1.instructions = s.instructions := hp.1
      have hp2 : s1.execution_start_index = s.execution_start_index := hp.2.1
      rcases e with _ | e
      · have hih := ih s1
        simp only [Logger.scanLoop, hl, hr]
        exact ⟨hih.1.trans hp1, hih.2.trans hp2⟩
      · simp only [Logger.scanLoop, hl, hr]
        exact ⟨hp1, hp2⟩

theorem scanLoop_ok_append (h : Heap) (frame : Frame) (xs : List Nat) :
    ∀ (ys : List Nat) (s s1 : Logger), Logger.scanLoop h frame s xs = (s1, none) →
      Logger.scanLoop h frame s (xs ++ ys) = Logger.scanLoop h frame s1 ys := by
  induction xs with
  | nil =>
    intro ys s s1 hx
    have : s1 = s := congrArg Prod.fst hx |>.symm
    rw [this]; rfl
  | cons i rest ih =>
    intro ys s s1 hx
    rcases hl : lookupInstr s.instructions i with _ | instr
    · simp [Logger.scanLoop, hl] at hx
    · rcases hr : Logger.log_changed_value h s frame instr with ⟨s2, e⟩
      rcases e with _ | e
      · simp only [Logger.scanLoop, hl, hr] at hx
        have := ih ys s2 s1 hx
        simp only [List.cons_append, Logger.scanLoop, hl, hr]
        exact this
      · simp [Logger.scanLoop, hl, hr] at hx

theorem scanLoop_error_of_step (h : Heap) (frame : Frame) (i : Nat) (rest : List Nat)
    (s : Logger) (instr : Instr) (e : Err)
    (hl : lookupInstr s.instructions i = some instr)
    (he : (Logger.log_changed_value h s frame instr).2 = some e) :
    Logger.scanLoop h frame s (i :: rest) = (s, some e) := by
  rcases hr : Logger.log_changed_value h s frame instr with ⟨s1, e1⟩
  have he2 : e1 = some e := by rw [hr] at he; exact he
  have hs1 : s1 = s := by
    have hst := log_changed_value_error_state h s frame instr e (by rw [hr]; exact he2)
    rw [hr] at hst; exact hst
  subst he2; subst hs1
  simp only [Logger.scanLoop, hl, hr]

theorem scanLoop_mutations_length (h : Heap) (frame : Frame) (xs : List Nat) :
    ∀ s s1 : Logger, Logger.scanLoop h frame s xs = (s1, none) →
      s1.mutations.length = s.mutations.length + countStores s.instructions xs := by
  induction xs with
  | nil =>
    intro s s1 hx
    have : s1 = s := congrArg Prod.fst hx |>.symm
    rw [this]; rfl
  | cons i rest ih =>
    intro s s1 hx
    rcases hl : lookupInstr s.instructions i with _ | instr
    · simp [Logger.scanLoop, hl] at hx
    · rcases hr : Logger.log_changed_value h s frame instr with ⟨s2, e⟩
      rcases e with _ | e
      · simp only [Logger.scanLoop, hl, hr] at hx
        have hlen := log_changed_value_mutations_length h s frame instr (by rw [hr])
        rw [hr] at hlen
        have hs2len : s2.mutations.length
            = s.mutations.length + (if isStoreOp instr = true then 1 else 0) := hlen
        have htbl := (log_changed_value_preserves h s frame instr).1
        rw [hr] at htbl
        have htbl2 : s2.instructions = s.instructions := htbl
        have hih := ih s2 s1 hx
        have hcount : countStores s.instructions (i :: rest)
            = (if isStoreOp instr = true then 1 else 0) + countStores s.instructions rest := by
          rcases hst : isStoreOp instr with _ | _
          all_goals simp [countStores, List.filter_cons, hl, hst]
          all_goals omega
        calc s1.mutations.length
            = s2.mutations.length + countStores s2.instructions rest := hih
          _ = (s.mutations.length + (if isStoreOp instr = true then 1 else 0))
              + countStores s.instructions rest := by rw [hs2len, htbl2]
          _ = s.mutations.length + countStores s.instructions (i :: rest) := by
              rw [hcount]; omega
      · simp [Logger.scanLoop, hl, hr] at hx

theorem record_jump_njl (s : Logger) (instr : Instr) :
    (s.record_jump_location_if_exists instr).next_jump_location
      = (if instr.jrel = true then some (instr.offset + 2 + instr.arg)
         else if instr.jabs = true then some instr.arg
         else none) := by
  unfold Logger.record_jump_location_if_exists
  rcases hr : instr.jrel with _ | _
  · rcases ha : instr.jabs with _ | _
    · simp [hr, ha]
    · simp [hr, ha]
  · simp [hr]

/-! ### Claim theorems -/

/-- Claim C3: when the frame's instruction pointer equals the previously
recorded `next_jump_location`, the observation call appends zero Mutations,
sets `execution_start_index` to that pointer and returns without scanning
any instruction, whatever kind of instruction (relative jump, absolute
jump, or other) sits at the target. -/
theorem jump_taken_no_mutations (h : Heap) (s : Logger) (frame : Frame)
    (hj : s.next_jump_location = some frame.f_lasti) :
    (Logger.detect_chanages h s frame).1.mutations = s.mutations ∧
    (Logger.detect_chanages h s frame).1.execution_start_index = frame.f_lasti := by
  rcases hl : lookupInstr s.instructions frame.f_lasti with _ | instr
  · simp [Logger.detect_chanages, hj, hl]
  · have hp := record_jump_preserves { s with execution_start_index := frame.f_lasti } instr
    constructor
    · simp only [Logger.detect_chanages, hj]
      simp [hl]
      exact hp.2.2.2
    · simp only [Logger.detect_chanages, hj]
      simp [hl]
      exact hp.2.1

/-- Claim C9: an observation call that takes the jump-taken branch never
passes any instruction to the Operand Stack Simulator, so the shadow
operand stack is left completely unchanged. -/
theorem jump_taken_stack_unchanged (h : Heap) (s : Logger) (frame : Frame)
    (hj : s.next_jump_location = some frame.f_lasti) :
    (Logger.detect_chanages h s frame).1.value_stack = s.value_stack := by
  rcases hl : lookupInstr s.instructions frame.f_lasti with _ | instr
  · simp [Logger.detect_chanages, hj, hl]
  · simp only [Logger.detect_chanages, hj]
    simp [hl]
    exact (record_jump_preserves { s with execution_start_index := frame.f_lasti } instr).2.2.1

/-- Claim C8: after every observation call that completes without raising,
`execution_start_index` equals the frame's current instruction pointer
`last_i`, on the jump-taken branch as well as the linear-scan branch. -/
theorem execution_start_index_invariant (h : Heap) (s : Logger) (frame : Frame)
    (hok : (Logger.detect_chanages h s frame).2 = none) :
    (Logger.detect_chanages h s frame).1.execution_start_index = frame.f_lasti := by
  by_cases hj : s.next_jump_location = some frame.f_lasti
  · rcases hl : lookupInstr s.instructions frame.f_lasti with _ | instr
    · simp [Logger.detect_chanages, hj, hl] at hok
    · simp only [Logger.detect_chanages, hj]
      simp [hl]
      exact (record_jump_preserves { s with execution_start_index := frame.f_lasti } instr).2.1
  · rcases hscan : Logger.scanLoop h frame s (scanOffsets s.execution_start_index frame.f_lasti)
      with ⟨s1, e⟩
    rcases e with _ | e
    · rcases hl : lookupInstr s1.instructions frame.f_lasti with _ | instr
      · simp [Logger.detect_chanages, hj, hscan, hl] at hok
      · simp [Logger.detect_chanages, hj, hscan, hl]
    · simp [Logger.detect_chanages, hj, hscan] at hok

/-- Claim C4: after an observation call that completes without raising,
`next_jump_location` is re-derived from the instruction at the current
instruction pointer `last_i`: for a relative jump with operand `D` it is
`last_i + 2 + D` (2 = the fixed instruction width), for an absolute jump
with operand `A` it is `A`, and otherwise it is `none`. -/
theorem next_jump_location_rederived (h : Heap) (s : Logger) (frame : Frame) (instr : Instr)
    (hok : (Logger.detect_chanages h s frame).2 = none)
    (hinstr : lookupInstr s.instructions frame.f_lasti = some instr) :
    (instr.jrel = true →
      (Logger.detect_chanages h s frame).1.next_jump_location
        = some (frame.f_lasti + 2 + instr.arg)) ∧
    (instr.jrel = false → instr.jabs = true →
      (Logger.detect_chanages h s frame).1.next_jump_location = some instr.arg) ∧
    (instr.jrel = false → instr.jabs = false →
      (Logger.detect_chanages h s frame).1.next_jump_location = none) := by
  have hoff := lookupInstr_offset hinstr
  by_cases hj : s.next_jump_location = some frame.f_lasti
  · have hred : (Logger.detect_chanages h s frame).1.next_jump_location
        = (({ s with execution_start_index := frame.f_lasti
            } : Logger).record_jump_location_if_exists instr).next_jump_location := by
      simp only [Logger.detect_chanages, hj]
      simp [hinstr]
    rw [hred, record_jump_njl, hoff]
    refine ⟨fun h1 => by simp [h1], fun h1 h2 => by simp [h1, h2], fun h1 h2 => by simp [h1, h2]⟩
  · rcases hscan : Logger.scanLoop h frame s (scanOffsets s.execution_start_index frame.f_lasti)
      with ⟨s1, e⟩
    rcases e with _ | e
    · have htbl : s1.instructions = s.instructions := by
        have hp := scanLoop_preserves h frame (scanOffsets s.execution_start_index frame.f_lasti) s
        rw [hscan] at hp
        exact hp.1
      have hred : (Logger.detect_chanages h s frame).1.next_jump_location
          = (s1.record_jump_location_if_exists instr).next_jump_location := by
        simp [Logger.detect_chanages, hj, hscan, htbl, hinstr]
      rw [hred, record_jump_njl, hoff]
      refine ⟨fun h1 => by simp [h1], fun h1 h2 => by simp [h1, h2], fun h1 h2 => by simp [h1, h2]⟩
    · simp [Logger.detect_chanages, hj, hscan] at hok

/-- Claim C5: a store-local-variable instruction (`STORE_NAME`, `STORE_FAST`)
with target name `n` appends a Mutation with target `n`, value the deep copy
of the value resolved for `n` by querying the frame's local, then global,
then builtin scope (first hit wins), and source the shadow stack's top. -/
theorem store_local_mutation_shape (h : Heap) (s : Logger) (frame : Frame) (instr : Instr)
    (snap : Snapshot) (t : PyVal)
    (hname : instr.opname = "STORE_NAME" ∨ instr.opname = "STORE_FAST")
    (hsnap : deepcopy_from_frame h frame (PyVal.str instr.argval) = Except.ok snap)
    (htos : s.value_stack.tos = Except.ok t) :
    Logger.log_changed_value h s frame instr =
      ({ s with
          mutations := s.mutations ++ [⟨MTarget.ident instr.argval, snap, t⟩]
          value_stack := s.value_stack.handle_instruction instr }, none) ∧
    (∀ (n : String) (v : PyVal) (sv : Snapshot),
      frame.f_locals.lookup n = some v → deepcopy h v = some sv →
        deepcopy_from_frame h frame (PyVal.str n) = Except.ok sv) ∧
    (∀ (n : String) (v : PyVal) (sv : Snapshot),
      frame.f_locals.lookup n = none → frame.f_globals.lookup n = some v →
        deepcopy h v = some sv →
        deepcopy_from_frame h frame (PyVal.str n) = Except.ok sv) ∧
    (∀ (n : String) (v : PyVal) (sv : Snapshot),
      frame.f_locals.lookup n = none → frame.f_globals.lookup n = none →
        frame.f_builtins.lookup n = some v → deepcopy h v = some sv →
        deepcopy_from_frame h frame (PyVal.str n) = Except.ok sv) := by
  refine ⟨log_changed_value_store_name h s frame instr hname snap t hsnap htos, ?_, ?_, ?_⟩
  · intro n v sv h1 h2
    simp [deepcopy_from_frame, scopeLookup, h1, h2]
  · intro n v sv h1 h2 h3
    simp [deepcopy_from_frame, scopeLookup, h1, h2, h3]
  · intro n v sv h1 h2 h3 h4
    simp [deepcopy_from_frame, scopeLookup, h1, h2, h3, h4]

/-- Claim C1 (amended): a store-attribute instruction (`STORE_ATTR`) appends a
Mutation whose target is the shadow stack's top value, whose value is the
deep copy of that top value resolved from the frame's scopes, and whose
source is the shadow stack's second-from-top value (`tos1`) — not the top
value, as the claim stated. -/
theorem store_attr_mutation_shape (h : Heap) (s : Logger) (frame : Frame) (instr : Instr)
    (hname : instr.opname = "STORE_ATTR")
    (snap : Snapshot) (t t1 : PyVal)
    (htos : s.value_stack.tos = Except.ok t)
    (hsnap : deepcopy_from_frame h frame t = Except.ok snap)
    (htos1 : s.value_stack.tos1 = Except.ok t1) :
    Logger.log_changed_value h s frame instr =
      ({ s with
          mutations := s.mutations ++ [⟨MTarget.obj t, snap, t1⟩]
          value_stack := s.value_stack.handle_instruction instr }, none) :=
  log_changed_value_store_attr h s frame instr hname snap t t1 htos hsnap htos1

/-- Claim C2 (amended): when a store instruction's name resolution fails, the
raised error aborts the scan: no Mutation is emitted for that instruction,
the remaining offsets are not scanned, and the error propagates out of the
observation call instead of being surfaced as a non-fatal warning. -/
theorem name_resolution_error_aborts_scan (h : Heap) (s s1 : Logger) (frame : Frame)
    (pre rest : List Nat) (i : Nat) (instr : Instr) (e : Err)
    (hnj : ¬ s.next_jump_location = some frame.f_lasti)
    (hsplit : scanOffsets s.execution_start_index frame.f_lasti = pre ++ i :: rest)
    (hpre : Logger.scanLoop h frame s pre = (s1, none))
    (hlook : lookupInstr s1.instructions i = some instr)
    (herr : (Logger.log_changed_value h s1 frame instr).2 = some e) :
    Logger.detect_chanages h s frame = (s1, some e) := by
  have hstep := scanLoop_error_of_step h frame i rest s1 instr e hlook herr
  have happ := scanLoop_ok_append h frame pre (i :: rest) s s1 hpre
  have hscan : Logger.scanLoop h frame s (scanOffsets s.execution_start_index frame.f_lasti)
      = (s1, some e) := by rw [hsplit, happ, hstep]
  simp [Logger.detect_chanages, hnj, hscan]

/-- Claim C10: when a store instruction's target name is absent from the
frame's local, global and builtin scopes, the error is raised while the
Mutation's arguments are still being evaluated, before any append: the
returned state is exactly the input state (same mutation log, no marker),
for named stores and for attribute stores alike. -/
theorem resolution_failure_leaves_log_unchanged (h : Heap) (s : Logger) (frame : Frame)
    (instr : Instr) :
    ((instr.opname = "STORE_NAME" ∨ instr.opname = "STORE_FAST") →
      scopeLookup frame.f_locals (PyVal.str instr.argval) = none →
      scopeLookup frame.f_globals (PyVal.str instr.argval) = none →
      scopeLookup frame.f_builtins (PyVal.str instr.argval) = none →
      Logger.log_changed_value h s frame instr = (s, some Err.nameNotFound)) ∧
    (∀ t : PyVal, instr.opname = "STORE_ATTR" →
      s.value_stack.tos = Except.ok t →
      scopeLookup frame.f_locals t = none →
      scopeLookup frame.f_globals t = none →
      scopeLookup frame.f_builtins t = none →
      Logger.log_changed_value h s frame instr = (s, some Err.nameNotFound)) := by
  constructor
  · intro hname h1 h2 h3
    have hd : deepcopy_from_frame h frame (PyVal.str instr.argval)
        = Except.error Err.nameNotFound := by
      simp [deepcopy_from_frame, h1, h2, h3]
    simp [Logger.log_changed_value, hname, hd]
  · intro t hattr htos h1 h2 h3
    have hne : ¬ (instr.opname = "STORE_NAME" ∨ instr.opname = "STORE_FAST") := by
      rw [hattr]; simp
    have hd : deepcopy_from_frame h frame t = Except.error Err.nameNotFound := by
      simp [deepcopy_from_frame, h1, h2, h3]
    simp [Logger.log_changed_value, hne, hattr, htos, hd]

/-- Claim C7: the value placed into a Mutation is an independent deep copy
taken at record-creation time; mutating the live object in the heap
afterwards leaves the recorded value exactly that record-time copy. -/
theorem deepcopy_independence (h : Heap) (s : Logger) (frame : Frame) (instr : Instr)
    (snap : Snapshot) (t : PyVal) (a : Nat) (o : PyObj)
    (hname : instr.opname = "STORE_NAME" ∨ instr.opname = "STORE_FAST")
    (hsnap : deepcopy_from_frame h frame (PyVal.str instr.argval) = Except.ok snap)
    (htos : s.value_stack.tos = Except.ok t) :
    (Logger.log_changed_value h s frame instr).1.mutations
      = s.mutations ++ [⟨MTarget.ident instr.argval, snap, t⟩] ∧
    (mutateLiveObject
        ⟨h, (Logger.log_changed_value h s frame instr).1⟩ a o).logger.mutations
      = s.mutations ++ [⟨MTarget.ident instr.argval, snap, t⟩] := by
  have hshape := log_changed_value_store_name h s frame instr hname snap t hsnap htos
  constructor
  · rw [hshape]
  · show (Logger.log_changed_value h s frame instr).1.mutations = _
    rw [hshape]

/-- Claim C6: over a linear (no-jump) scan that completes without raising,
the number of Mutations appended equals the number of store-class
instructions at the scanned offsets, and for each store instruction the
Mutation Recorder reads the shadow stack before the Operand Stack
Simulator update is applied (the recorded source is the pre-update top of
stack and the resulting stack is the post-update one). -/
theorem linear_scan_mutation_count (h : Heap) (s : Logger) (frame : Frame)
    (hnj : ¬ s.next_jump_location = some frame.f_lasti)
    (hok : (Logger.detect_chanages h s frame).2 = none) :
    (Logger.detect_chanages h s frame).1.mutations.length
      = s.mutations.length
        + countStores s.instructions (scanOffsets s.execution_start_index frame.f_lasti) ∧
    (∀ (s2 : Logger) (instr : Instr) (snap : Snapshot) (t : PyVal) (rest : List PyVal),
      (instr.opname = "STORE_NAME" ∨ instr.opname = "STORE_FAST") →
      s2.value_stack.stack = t :: rest →
      deepcopy_from_frame h frame (PyVal.str instr.argval) = Except.ok snap →
      Logger.log_changed_value h s2 frame instr =
        ({ s2 with
            mutations := s2.mutations ++ [⟨MTarget.ident instr.argval, snap, t⟩]
            value_stack := s2.value_stack.handle_instruction instr }, none)) := by
  constructor
  · rcases hscan : Logger.scanLoop h frame s (scanOffsets s.execution_start_index frame.f_lasti)
      with ⟨s1, e⟩
    rcases e with _ | e
    · rcases hl : lookupInstr s1.instructions frame.f_lasti with _ | instr
      · simp [Logger.detect_chanages, hnj, hscan, hl] at hok
      · have hlen := scanLoop_mutations_length h frame
          (scanOffsets s.execution_start_index frame.f_lasti) s s1 hscan
        have hred : (Logger.detect_chanages h s frame).1.mutations = s1.mutations := by
          simp [Logger.detect_chanages, hnj, hscan, hl]
          exact (record_jump_preserves s1 instr).2.2.2
        rw [hred, hlen]
    · simp [Logger.detect_chanages, hnj, hscan] at hok
  · intro s2 instr snap t rest hname hstack hsnap
    have htos : s2.value_stack.tos = Except.ok t := by
      simp [ValueStack.tos, hstack]
    exact log_changed_value_store_name h s2 frame instr hname snap t hsnap htos

/-! ### Concrete states used by the counterexamples and witnesses -/

/-- A heap with one live list object `[1, 2]` at address 0. -/
def exHeap : Heap := [(0, [PyVal.int 1, PyVal.int 2])]

/-- Frame for the attribute-store example: `o` names a string, `x` a list. -/
def exFrame : Frame :=
  { f_lasti := 4
    f_locals := [("o", PyVal.ref 0), ("x", PyVal.str "stored")]
    f_globals := []
    f_builtins := [] }

def exAttrInstr : Instr :=
  { offset := 0, opname := "STORE_ATTR", jrel := false, jabs := false, arg := 0
    argval := "value" }

/-- Logger about to process `STORE_ATTR` with shadow stack top `"o"` and
second-from-top `"x"`. -/
def exAttrLogger : Logger :=
  { instructions := [exAttrInstr]
    execution_start_index := 0
    next_jump_location := none
    value_stack := ⟨[PyVal.str "o", PyVal.str "x"]⟩
    mutations := [] }

def exI0 : Instr :=
  { offset := 0, opname := "STORE_NAME", jrel := false, jabs := false, arg := 0, argval := "x" }

def exI2 : Instr :=
  { offset := 2, opname := "STORE_ATTR", jrel := false, jabs := false, arg := 0
    argval := "value" }

def exI4 : Instr :=
  { offset := 4, opname := "JUMP_FORWARD", jrel := true, jabs := false, arg := 6, argval := "" }

/-- Frame for the linear-scan example, stopped at offset 4. -/
def exScanFrame : Frame :=
  { f_lasti := 4
    f_locals := [("x", PyVal.ref 0), ("o", PyVal.str "obj")]
    f_globals := []
    f_builtins := [] }

/-- Logger scanning `[STORE_NAME "x" @0, STORE_ATTR @2, JUMP_FORWARD @4]`. -/
def exScanLogger : Logger :=
  { instructions := [exI0, exI2, exI4]
    execution_start_index := 0
    next_jump_location := none
    value_stack := ⟨[PyVal.str "x", PyVal.str "o", PyVal.str "x", PyVal.int 9]⟩
    mutations := [] }

def exJumpFrame : Frame :=
  { f_lasti := 8, f_locals := [], f_globals := [], f_builtins := [] }

def exJumpTargetInstr : Instr :=
  { offset := 8, opname := "JUMP_ABSOLUTE", jrel := false, jabs := true, arg := 2, argval := "" }

/-- Logger that recorded jump target 8; the frame is now exactly there. -/
def exJumpLogger : Logger :=
  { instructions := [exJumpTargetInstr]
    execution_start_index := 0
    next_jump_location := some 8
    value_stack := ⟨[PyVal.int 1]⟩
    mutations := [] }

def exMissInstr0 : Instr :=
  { offset := 0, opname := "STORE_NAME", jrel := false, jabs := false, arg := 0
    argval := "missing" }

def exStoreY : Instr :=
  { offset := 2, opname := "STORE_NAME", jrel := false, jabs := false, arg := 0, argval := "y" }

def exOther4 : Instr :=
  { offset := 4, opname := "RETURN_VALUE", jrel := false, jabs := false, arg := 0, argval := "" }

/-- Frame in which `missing` resolves nowhere but `y` resolves locally. -/
def exMissFrame : Frame :=
  { f_lasti := 4
    f_locals := [("y", PyVal.int 2)]
    f_globals := []
    f_builtins := [] }

/-- Logger whose scan range holds an unresolvable store at offset 0 followed
by a resolvable store at offset 2. -/
def exMissLogger : Logger :=
  { instructions := [exMissInstr0, exStoreY, exOther4]
    execution_start_index := 0
    next_jump_location := none
    value_stack := ⟨[PyVal.int 9, PyVal.int 8]⟩
    mutations := [] }

/-! ### Counterexamples and witnesses -/

/-- Claim C1 is false as stated: at this store-attribute instruction the
shadow stack's top is `"o"`, yet the emitted Mutation's source is the
second-from-top `"x"`, a different value. -/
theorem store_attr_source_not_tos_cex :
    exAttrLogger.value_stack.tos = Except.ok (PyVal.str "o") ∧
    (Logger.log_changed_value exHeap exAttrLogger exFrame exAttrInstr).1.mutations
      = [⟨MTarget.obj (PyVal.str "o"), Snapshot.list [Snapshot.int 1, Snapshot.int 2],
          PyVal.str "x"⟩] ∧
    PyVal.str "x" ≠ PyVal.str "o" :=
  ⟨rfl, rfl, by decide⟩

theorem store_attr_mutation_shape_witness :
    Logger.log_changed_value exHeap exAttrLogger exFrame exAttrInstr =
      ({ exAttrLogger with
          mutations := exAttrLogger.mutations
            ++ [⟨MTarget.obj (PyVal.str "o"),
                Snapshot.list [Snapshot.int 1, Snapshot.int 2], PyVal.str "x"⟩]
          value_stack := exAttrLogger.value_stack.handle_instruction exAttrInstr }, none) :=
  store_attr_mutation_shape exHeap exAttrLogger exFrame exAttrInstr rfl
    (Snapshot.list [Snapshot.int 1, Snapshot.int 2]) (PyVal.str "o") (PyVal.str "x") rfl rfl rfl

/-- Claim C2 is false as stated: the store at offset 0 has an unresolvable
name, and the observation call returns the raised error with the state
untouched — the resolvable store at offset 2 (inside the scan range) is
never scanned and no mutation or marker is emitted for anything. -/
theorem name_resolution_aborts_scan_cex :
    Logger.detect_chanages exHeap exMissLogger exMissFrame
      = (exMissLogger, some Err.nameNotFound) ∧
    scanOffsets exMissLogger.execution_start_index exMissFrame.f_lasti = [0, 2] ∧
    lookupInstr exMissLogger.instructions 2 = some exStoreY ∧
    deepcopy_from_frame exHeap exMissFrame (PyVal.str "y") = Except.ok (Snapshot.int 2) ∧
    (Logger.detect_chanages exHeap exMissLogger exMissFrame).1.mutations = [] :=
  ⟨rfl, rfl, rfl, rfl, rfl⟩

theorem name_resolution_error_aborts_scan_witness :
    Logger.detect_chanages exHeap exMissLogger exMissFrame
      = (exMissLogger, some Err.nameNotFound) :=
  name_resolution_error_aborts_scan exHeap exMissLogger exMissLogger exMissFrame
    [] [2] 0 exMissInstr0 Err.nameNotFound (by decide) rfl rfl rfl rfl

theorem jump_taken_no_mutations_witness :
    (Logger.detect_chanages exHeap exJumpLogger exJumpFrame).1.mutations
      = exJumpLogger.mutations ∧
    (Logger.detect_chanages exHeap exJumpLogger exJumpFrame).1.execution_start_index = 8 :=
  jump_taken_no_mutations exHeap exJumpLogger exJumpFrame rfl

theorem jump_taken_stack_unchanged_witness :
    (Logger.detect_chanages exHeap exJumpLogger exJumpFrame).1.value_stack
      = exJumpLogger.value_stack :=
  jump_taken_stack_unchanged exHeap exJumpLogger exJumpFrame rfl

theorem execution_start_index_invariant_witness :
    (Logger.detect_chanages exHeap exScanLogger exScanFrame).1.execution_start_index = 4 :=
  execution_start_index_invariant exHeap exScanLogger exScanFrame rfl

theorem next_jump_location_rederived_witness :
    (Logger.detect_chanages exHeap exScanLogger exScanFrame).1.next_jump_location
      = some 12 :=
  (next_jump_location_rederived exHeap exScanLogger exScanFrame exI4 rfl rfl).1 rfl

theorem store_local_mutation_shape_witness :
    Logger.log_changed_value exHeap exScanLogger exScanFrame exI0 =
      ({ exScanLogger with
          mutations := exScanLogger.mutations
            ++ [⟨MTarget.ident exI0.argval,
                Snapshot.list [Snapshot.int 1, Snapshot.int 2], PyVal.str "x"⟩]
          value_stack := exScanLogger.value_stack.handle_instruction exI0 }, none) :=
  (store_local_mutation_shape exHeap exScanLogger exScanFrame exI0
    (Snapshot.list [Snapshot.int 1, Snapshot.int 2]) (PyVal.str "x")
    (Or.inl rfl) rfl rfl).1

theorem linear_scan_mutation_count_witness :
    (Logger.detect_chanages exHeap exScanLogger exScanFrame).1.mutations.length
      = exScanLogger.mutations.length
        + countStores exScanLogger.instructions
            (scanOffsets exScanLogger.execution_start_index exScanFrame.f_lasti) :=
  (linear_scan_mutation_count exHeap exScanLogger exScanFrame (by decide) rfl).1

theorem deepcopy_independence_witness :
    ((Logger.log_changed_value exHeap exScanLogger exScanFrame exI0).1.mutations
      = exScanLogger.mutations
        ++ [⟨MTarget.ident exI0.argval,
            Snapshot.list [Snapshot.int 1, Snapshot.int 2], PyVal.str "x"⟩] ∧
    (mutateLiveObject
        ⟨exHeap, (Logger.log_changed_value exHeap exScanLogger exScanFrame exI0).1⟩
        0 [PyVal.int 99]).logger.mutations
      = exScanLogger.mutations
        ++ [⟨MTarget.ident exI0.argval,
            Snapshot.list [Snapshot.int 1, Snapshot.int 2], PyVal.str "x"⟩]) ∧
    deepcopy (heapUpdate exHeap 0 [PyVal.int 99]) (PyVal.ref 0)
      ≠ some (Snapshot.list [Snapshot.int 1, Snapshot.int 2]) := by
  constructor
  · exact deepcopy_independence exHeap exScanLogger exScanFrame exI0
      (Snapshot.list [Snapshot.int 1, Snapshot.int 2]) (PyVal.str "x") 0 [PyVal.int 99]
      (Or.inl rfl) rfl rfl
  · rw [show deepcopy (heapUpdate exHeap 0 [PyVal.int 99]) (PyVal.ref 0)
        = some (Snapshot.list [Snapshot.int 99]) from rfl]
    simp

theorem resolution_failure_leaves_log_unchanged_witness :
    Logger.log_changed_value exHeap exMissLogger exMissFrame exMissInstr0
      = (exMissLogger, some Err.nameNotFound) :=
  (resolution_failure_leaves_log_unchanged exHeap exMissLogger exMissFrame exMissInstr0).1
    (Or.inl rfl) rfl rfl rfl
